import Mathlib

/-!
Verification of the `valid` string-validation library.

Shallow embedding of the Go package `valid` (string validators and an
error aggregator) together with proofs of its specified properties.

Embedding conventions:
* A Go `error` result is `Option String`: `none` is Go's `nil` (the value
  is valid), `some msg` is `errors.New(msg)` (the configured message).
* `StringValidator` / `StringFunc` both become the function type
  `String → Option String`; the Go interface has the single method
  `Validate`, which is plain application here.
* Go `int` bounds become `Int` (they may be negative).
* Go `len(val)` is the number of bytes of the UTF-8 encoding of `val`,
  modelled by `Valid.goLen` (sum of `Char.utf8Size` over the characters).
* A compiled regular expression `*regexp.Regexp` is abstracted by its
  `MatchString` function `String → Bool`; the two fixed anchored patterns
  the claims need (`RegEmail` and the W3C e-mail pattern) are embedded as
  executable matchers of exactly their regular languages.
-/

namespace Valid

/-- Go `len(val)` over a list of characters: total number of bytes of the
UTF-8 encoding (`Char.utf8Size` bytes per character). -/
def utf8Len : List Char → Nat
  | [] => 0
  | c :: cs => c.utf8Size + utf8Len cs

/-- Go `len(val)` for a string value: the byte length of its UTF-8
encoding (not the number of code points). -/
def goLen (s : String) : Nat := utf8Len s.data

/-- A `StringFunc` (and a `StringValidator`): a validator takes the value and
returns a validation error (`some message`) or `nil` (`none`). -/
abbrev StringFunc := String → Option String

/-- The Go interface `StringValidator` is structurally the same
capability as `StringFunc`; `Validate` is function application. -/
abbrev StringValidator := StringFunc

/-- Validator `RegexpCompiled(reg, message)`: valid iff `reg.MatchString(val)`;
the compiled pattern is abstracted by its `MatchString` function. -/
def RegexpCompiled (reg : String → Bool) (message : String) : StringFunc :=
  fun val => if reg val then none else some message

/-- Constructor `Regexp(pattern, message)`: compiles `pattern` at construction time
via `regexp.MustCompile` and wraps the result in `RegexpCompiled`.
The host engine is abstracted as `compile : String → Option (String → Bool)`
(`none` for a syntactically invalid pattern); `MustCompile`'s panic is
modelled as the construction aborting with `none` instead of returning a
validator. -/
def Regexp (compile : String → Option (String → Bool))
    (pattern message : String) : Option StringFunc :=
  match compile pattern with
  | none => none
  | some reg => some (RegexpCompiled reg message)

/-- Validator `Len(min, max, message)`: error iff `max < len(val) || len(val) < min`. -/
def Len (min max : Int) (message : String) : StringFunc :=
  fun val =>
    if max < (goLen val : Int) ∨ (goLen val : Int) < min then some message
    else none

/-- Validator `MinLen(min, message)`: error iff `len(val) < min`. -/
def MinLen (min : Int) (message : String) : StringFunc :=
  fun val => if (goLen val : Int) < min then some message else none

/-- Validator `MaxLen(max, message)`: error iff `len(val) > max`. -/
def MaxLen (max : Int) (message : String) : StringFunc :=
  fun val => if (goLen val : Int) > max then some message else none

/-- Validator `LenStrict(min, max, message)`: error iff
`max <= len(val) || len(val) <= min`. -/
def LenStrict (min max : Int) (message : String) : StringFunc :=
  fun val =>
    if max ≤ (goLen val : Int) ∨ (goLen val : Int) ≤ min then some message
    else none

/-- Validator `MinLenStrict(min, message)`: error iff `len(val) <= min`. -/
def MinLenStrict (min : Int) (message : String) : StringFunc :=
  fun val => if (goLen val : Int) ≤ min then some message else none

/-- Validator `MaxLenStrict(max, message)`: error iff `len(val) >= max`. -/
def MaxLenStrict (max : Int) (message : String) : StringFunc :=
  fun val => if (goLen val : Int) ≥ max then some message else none

/-- Validator `Nonempty(message)`: error iff `val == ""`. -/
def Nonempty (message : String) : StringFunc :=
  fun val => if val = "" then some message else none

/-! The two fixed e-mail character classes.

The source literal `RegEmail` is
`^[a-zA-Z0-9.!#$%&â€™*+/=?^_`{|}~-]+@[a-zA-Z0-9-]+(?:\.[a-zA-Z0-9-]+)*$`:
its local-part character class contains the three mojibake characters
U+00E2, U+20AC, U+2122 (bytes `c3 a2 e2 82 ac e2 84 a2` in the file)
where the W3C HTML5 pattern has the ASCII apostrophe U+0027. -/

/-- The punctuation characters of the local-part class of the source's
`RegEmail` literal, exactly as they appear in the source file: the three
mojibake characters â (U+00E2), € (U+20AC), ™ (U+2122) stand where the
W3C pattern has the ASCII apostrophe. -/
def regEmailSpecials : String := ".!#$%&â€™*+/=?^_`\x7b|\x7d~-"

/-- The punctuation characters of the local-part class of the W3C HTML5
e-mail pattern (with the ASCII apostrophe `\x27`). -/
def w3cEmailSpecials : String := ".!#$%&\x27*+/=?^_`\x7b|\x7d~-"

/-- Membership in the local-part character class of the source's
`RegEmail` regex: `a-zA-Z0-9` plus the literal punctuation characters. -/
def regEmailLocalChar (c : Char) : Bool :=
  c.isAlpha || c.isDigit || regEmailSpecials.data.contains c

/-- Modelled from the spec: membership in the local-part character class
of the W3C HTML5 e-mail pattern as the spec quotes it, with the ASCII
apostrophe; used only to compare against the source's class. -/
def w3cEmailLocalChar (c : Char) : Bool :=
  c.isAlpha || c.isDigit || w3cEmailSpecials.data.contains c

/-- Membership in the domain character class `[a-zA-Z0-9-]`. -/
def emailDomainChar (c : Char) : Bool :=
  c.isAlpha || c.isDigit || c == '-'

/-- Matcher for the anchored domain part `[a-zA-Z0-9-]+(?:\.[a-zA-Z0-9-]+)*$`,
as a deterministic scan (`'.'` is not a domain character, so the regex is
deterministic): `seen` records whether the current label already has at
least one character. -/
def emailDomainMatch : Bool → List Char → Bool
  | seen, [] => seen
  | seen, c :: cs =>
    if c == '.' then seen && emailDomainMatch false cs
    else emailDomainChar c && emailDomainMatch true cs

/-- Matcher for the whole anchored e-mail pattern
`^[class]+@[a-zA-Z0-9-]+(?:\.[a-zA-Z0-9-]+)*$`, parameterized by the
local-part class (which contains neither `'@'` nor is empty on `'@'`,
so the scan is deterministic): `seen` records whether at least one
local-part character has been consumed. -/
def emailMatchAux (localChar : Char → Bool) : Bool → List Char → Bool
  | _, [] => false
  | seen, c :: cs =>
    if c == '@' then seen && emailDomainMatch false cs
    else localChar c && emailMatchAux localChar true cs

/-- Full-string match of the anchored e-mail pattern with the given
local-part class. -/
def emailMatch (localChar : Char → Bool) (s : String) : Bool :=
  emailMatchAux localChar false s.data

/-- Matcher of the source's compiled `RegEmail` pattern (its `MatchString`):
it carries the mojibake characters in the local-part class. The pattern is fully
anchored by its own `^`/`$`, so the unanchored Go search coincides with
a full-string match. -/
def RegEmailMatchString : String → Bool :=
  emailMatch regEmailLocalChar

/-- Modelled from the spec: the W3C HTML5 e-mail pattern as the spec
quotes it, with the ASCII apostrophe in the local-part class; used to
compare the source's `RegEmail` against the claimed pattern. -/
def w3cEmailMatchString : String → Bool :=
  emailMatch w3cEmailLocalChar

/-- Validator `Email(message)`: `RegexpCompiled(RegEmail, message)`. -/
def Email (message : String) : StringFunc :=
  RegexpCompiled RegEmailMatchString message

end Valid

/-- Aggregator `String(val, v...)`: evaluates every validator on `val` in order,
appending each non-nil error to a slice that starts out as the empty
(non-nil) slice `make([]error, 0)`. -/
def Valid.String (val : String) (v : List Valid.StringFunc) : List String :=
  v.foldl
    (fun errors validator =>
      match validator val with
      | some err => errors ++ [err]
      | none => errors)
    []

/-! Helper lemmas shared by the claim theorems. -/

/-- A validator of the shape `if c then some m else none` reports no
error exactly when the error condition `c` fails. -/
theorem ifError_none_iff {c : Prop} [Decidable c] {m : String} :
    (if c then some m else (none : Option String)) = none ↔ ¬c := by
  split <;> simp_all

/-- The aggregator's loop, with an arbitrary accumulator: the final slice
is the accumulator followed by the errors of the failing validators in
order. -/
theorem string_foldl_acc (val : String) (v : List Valid.StringFunc)
    (acc : List String) :
    v.foldl
      (fun errors validator =>
        match validator val with
        | some err => errors ++ [err]
        | none => errors)
      acc = acc ++ v.filterMap (fun f => f val) := by
  induction v generalizing acc with
  | nil => simp
  | cons f fs ih =>
    simp only [List.foldl_cons, List.filterMap_cons]
    cases h : f val with
    | none => simp [h, ih]
    | some err => simp [h, ih]

/-- The aggregator returns exactly the errors of the failing validators,
in the order the validators were supplied. -/
theorem string_eq_filterMap (val : String) (v : List Valid.StringFunc) :
    Valid.String val v = v.filterMap (fun f => f val) := by
  simpa using string_foldl_acc val v []

/-- The UTF-8 byte count used in the embedding agrees with the
recursion inside `String.utf8ByteSize`. -/
theorem utf8Len_eq_go (l : List Char) :
    Valid.utf8Len l = String.utf8ByteSize.go l := by
  induction l with
  | nil => rfl
  | cons c cs ih =>
    simp only [Valid.utf8Len, String.utf8ByteSize.go, ih]
    omega

/-- `Valid.goLen` is exactly the UTF-8 byte size of the string. -/
theorem goLen_eq_utf8ByteSize (s : String) :
    Valid.goLen s = s.utf8ByteSize := by
  cases s with
  | mk l => simpa [Valid.goLen, String.utf8ByteSize] using utf8Len_eq_go l

/-- The byte length of a run of `k` copies of `'a'` is `k`. -/
theorem goLen_replicate (k : Nat) :
    Valid.goLen (String.mk (List.replicate k 'a')) = k := by
  show Valid.utf8Len (List.replicate k 'a') = k
  induction k with
  | zero => rfl
  | succ n ih =>
    have ha : Char.utf8Size 'a' = 1 := by decide
    simp [List.replicate_succ, Valid.utf8Len, ih, ha]
    omega

/-! Claim theorems. -/

/-- C1: the claim says `Email(message)` passes exactly the strings
matching the W3C HTML5 e-mail pattern, with the ASCII apostrophe among
the allowed local-part characters, so that `o'brien@example.com` passes.
The source's `RegEmail` literal instead contains the mojibake characters
`â`, `€`, `™` where the W3C pattern has the apostrophe, so the code
rejects `o'brien@example.com` even though the W3C pattern matches it:
the apostrophe is not in the code's class while `â` is. -/
theorem valid_email_mojibake_apostrophe :
    Valid.Email "m" "o\x27brien@example.com" = some "m"
    ∧ Valid.w3cEmailMatchString "o\x27brien@example.com" = true
    ∧ Valid.regEmailLocalChar '\x27' = false
    ∧ Valid.regEmailLocalChar 'â' = true
    ∧ Valid.w3cEmailLocalChar '\x27' = true := by
  decide

/-- C2: the aggregator evaluates every validator on the value in the
given order, never short-circuits, and returns exactly the errors of the
failing validators in that order; in particular the documented scenario
on `"john"` yields exactly `"is not email"` then `"this should fail"`. -/
theorem valid_string_evaluates_all_in_order (val : String)
    (v : List Valid.StringFunc) :
    Valid.String val v = v.filterMap (fun f => f val)
    ∧ Valid.String "john"
        [Valid.Email "is not email", Valid.MaxLen 10 "this should pass",
         Valid.MinLen 5 "this should fail"]
      = ["is not email", "this should fail"] := by
  exact ⟨string_eq_filterMap val v, by decide⟩

/-- C3: `Len(min, max, message)` passes `val` iff
`min ≤ len(val) ≤ max`; when `min > max` it rejects every string, with
no special-casing of that configuration. -/
theorem valid_len_iff_and_empty_range (min max : Int) (message val : String) :
    (Valid.Len min max message val = none ↔
      min ≤ (Valid.goLen val : Int) ∧ (Valid.goLen val : Int) ≤ max)
    ∧ (min > max → Valid.Len min max message val = some message) := by
  constructor
  · simp only [Valid.Len, ifError_none_iff]
    omega
  · intro h
    have hc : max < (Valid.goLen val : Int) ∨ (Valid.goLen val : Int) < min := by
      omega
    simp only [Valid.Len]
    exact if_pos hc

/-- Witness for C3 at the concrete configuration `Len(5, 3)` on `"abcd"`:
the empty range rejects. -/
theorem valid_len_iff_and_empty_range_witness :
    Valid.Len 5 3 "m" "abcd" = some "m" :=
  (valid_len_iff_and_empty_range 5 3 "m" "abcd").2 (by decide)

/-- C4: `LenStrict(min, max, message)` passes `val` iff
`min < len(val) < max`, both bounds excluded. -/
theorem valid_lenStrict_iff (min max : Int) (message val : String) :
    Valid.LenStrict min max message val = none ↔
      min < (Valid.goLen val : Int) ∧ (Valid.goLen val : Int) < max := by
  simp only [Valid.LenStrict, ifError_none_iff]
  omega

/-- C5: `MinLen(min)` passes iff `len(val) ≥ min` and `MinLenStrict(min)`
passes iff `len(val) > min`; hence `MinLen(4)` passes every string of
length exactly 4 while `MinLenStrict(4)` rejects it, and for every `n`
some string is accepted by `MinLen(n)` but rejected by
`MaxLenStrict(n+1)`, so the two are not equivalent. -/
theorem valid_minLen_boundaries (min : Int) (message val : String) :
    (Valid.MinLen min message val = none ↔ min ≤ (Valid.goLen val : Int))
    ∧ (Valid.MinLenStrict min message val = none ↔
        min < (Valid.goLen val : Int))
    ∧ ((Valid.goLen val : Int) = 4 →
        Valid.MinLen 4 message val = none
        ∧ Valid.MinLenStrict 4 message val = some message)
    ∧ (∀ n : Int, ∃ w,
        Valid.MinLen n message w = none
        ∧ Valid.MaxLenStrict (n + 1) message w = some message) := by
  refine ⟨?_, ?_, ?_, ?_⟩
  · simp only [Valid.MinLen, ifError_none_iff]
    omega
  · simp only [Valid.MinLenStrict, ifError_none_iff]
    omega
  · intro h
    constructor
    · simp only [Valid.MinLen, ifError_none_iff]
      omega
    · simp only [Valid.MinLenStrict]
      exact if_pos (by omega)
  · intro n
    refine ⟨String.mk (List.replicate (n + 1).toNat 'a'), ?_, ?_⟩
    · simp only [Valid.MinLen, ifError_none_iff, goLen_replicate]
      omega
    · simp only [Valid.MaxLenStrict, goLen_replicate]
      exact if_pos (by omega)

/-- Witness for C5 on `"abcd"` (length 4): `MinLen(4)` passes and
`MinLenStrict(4)` rejects. -/
theorem valid_minLen_boundaries_witness :
    Valid.MinLen 4 "m" "abcd" = none
    ∧ Valid.MinLenStrict 4 "m" "abcd" = some "m" :=
  (valid_minLen_boundaries 4 "m" "abcd").2.2.1 (by decide)

/-- C6: `Regexp(pattern, message)` compiles the pattern at construction
time: when the host compiler rejects the pattern, construction aborts
(`MustCompile`'s fatal error, modelled as `none`) and no validator —
always-failing, always-passing or otherwise — is returned; when the host
compiler accepts it, construction returns exactly the total validator
`RegexpCompiled reg message`. -/
theorem valid_regexp_construction (compile : String → Option (String → Bool))
    (pattern message : String) :
    (compile pattern = none → Valid.Regexp compile pattern message = none)
    ∧ ∀ reg, compile pattern = some reg →
        Valid.Regexp compile pattern message
          = some (Valid.RegexpCompiled reg message) := by
  constructor
  · intro h
    simp [Valid.Regexp, h]
  · intro reg h
    simp [Valid.Regexp, h]

/-- Witness for C6: a rejecting host compiler aborts construction, an
accepting one yields the compiled-pattern validator. -/
theorem valid_regexp_construction_witness :
    Valid.Regexp (fun _ => none) "(" "m" = none
    ∧ Valid.Regexp (fun _ => some (fun _ => true)) "ab" "m"
        = some (Valid.RegexpCompiled (fun _ => true) "m") :=
  ⟨(valid_regexp_construction (fun _ => none) "(" "m").1 rfl,
   (valid_regexp_construction (fun _ => some (fun _ => true)) "ab" "m").2
     (fun _ => true) rfl⟩

/-- C7: the aggregator returns a list, which is empty exactly when every
validator passes (in the embedding a list is always a present value,
matching the non-nil slice `make([]error, 0)` the code starts from); in
particular the empty validator list yields the empty error list. -/
theorem valid_string_empty_result (val : String)
    (v : List Valid.StringFunc) :
    (Valid.String val v = [] ↔ ∀ f ∈ v, f val = none)
    ∧ Valid.String val [] = [] := by
  refine ⟨?_, rfl⟩
  rw [string_eq_filterMap]
  simp

/-- Witness for C7: a single passing validator yields the empty list. -/
theorem valid_string_empty_result_witness :
    Valid.String "john" [Valid.MaxLen 10 "m"] = [] :=
  (valid_string_empty_result "john" [Valid.MaxLen 10 "m"]).1.mpr
    (by intro f hf; rw [List.mem_singleton] at hf; subst hf; decide)

/-- C8: `RegexpCompiled(reg, message)` passes `val` iff the host matcher
`reg` (the compiled pattern's `MatchString`, with its unanchored
match-anywhere semantics) reports a match — the library adds no
anchoring of its own; e.g. a matcher that finds `'b'` anywhere accepts
any string containing it as a substring and rejects strings without
it. -/
theorem valid_regexpCompiled_host_match (reg : String → Bool)
    (message val : String) :
    (Valid.RegexpCompiled reg message val = none ↔ reg val = true)
    ∧ Valid.RegexpCompiled (fun s => s.data.contains 'b') "m" "xxbyy" = none
    ∧ Valid.RegexpCompiled (fun s => s.data.contains 'b') "m" "xxyy"
        = some "m" := by
  refine ⟨?_, by decide, by decide⟩
  simp only [Valid.RegexpCompiled]
  split <;> simp_all

/-- C9: `Nonempty(message)` rejects exactly the empty string and passes
every other string, including whitespace-only ones. -/
theorem valid_nonempty_iff (message val : String) :
    (Valid.Nonempty message val = none ↔ val ≠ "")
    ∧ Valid.Nonempty message "" = some message
    ∧ Valid.Nonempty message " \t " = none := by
  refine ⟨?_, by simp [Valid.Nonempty], by simp [Valid.Nonempty]⟩
  simp only [Valid.Nonempty, ifError_none_iff, ne_eq]

/-- Witness for C9: a non-empty string passes. -/
theorem valid_nonempty_iff_witness :
    Valid.Nonempty "m" "hello" = none :=
  (valid_nonempty_iff "m" "hello").1.mpr (by decide)

/-- C10: the length the length validators compare against their bounds
is the number of bytes of the UTF-8 encoding, not the number of code
points: `goLen` equals `String.utf8ByteSize`, the two-byte character
`"é"` has `goLen` 2 but code-point length 1, and `MaxLen(1)` rejects
it while `Len(2,2)` accepts it. -/
theorem valid_length_is_utf8_bytes (val : String) :
    Valid.goLen val = val.utf8ByteSize
    ∧ (Valid.goLen "é" = 2 ∧ "é".length = 1
       ∧ Valid.MaxLen 1 "m" "é" = some "m"
       ∧ Valid.Len 2 2 "m" "é" = none) := by
  exact ⟨goLen_eq_utf8ByteSize val, by decide, by decide, by decide, by decide⟩
